import Mathlib

/-!
Verification of the mc-controller reconciliation core.

This file gives a shallow embedding of the condition bookkeeping
(`api/v1alpha1/common_types.go`), the connection resolver
(`internal/minio` `buildClientConfig`), and the reconcile passes of the
User, Policy and Bucket controllers, and proves the stated properties
about them.  External effects (Kubernetes reads/writes, MinIO SDK calls)
are modelled by an explicit store and by per-call-site oracle fields in
an environment record; each pass returns its `ctrl.Result`, whether a
non-nil error was returned, the final in-memory resource, and a trace of
the persistence and remote-call events it issued, in order.
-/

namespace MC

/-- Status of a condition, mirroring `metav1.ConditionStatus`
("True" / "False" / "Unknown"). -/
inductive ConditionStatus where
  | conditionTrue
  | conditionFalse
  | conditionUnknown
deriving DecidableEq, Repr

/-- Condition type, mirroring the `ConditionType` constants in
`api/v1alpha1/common_types.go` (Ready / Progressing / Degraded / Error). -/
inductive ConditionType where
  | ready
  | progressing
  | degraded
  | error
deriving DecidableEq, Repr

/-- Condition, mirroring the `Condition` struct in
`api/v1alpha1/common_types.go`.  Times are abstract instants (`Nat`). -/
structure Condition where
  type : ConditionType
  status : ConditionStatus
  lastTransitionTime : Nat
  reason : String
  message : String
deriving DecidableEq, Repr

/-- SetCondition, translated from `SetCondition` in
`api/v1alpha1/common_types.go`: find the first condition of the given
type; if its status differs, update status, last-transition time, reason
and message; if the status is unchanged, update only reason and message;
if no condition of that type exists, append a fresh one.  `metav1.Now()`
is passed explicitly as `now`. -/
def SetCondition (conditions : List Condition) (conditionType : ConditionType)
    (status : ConditionStatus) (reason message : String) (now : Nat) :
    List Condition :=
  match conditions with
  | [] =>
    [{ type := conditionType, status := status, lastTransitionTime := now,
       reason := reason, message := message }]
  | c :: rest =>
    if c.type = conditionType then
      if c.status ≠ status then
        { c with status := status, lastTransitionTime := now,
                 reason := reason, message := message } :: rest
      else
        { c with reason := reason, message := message } :: rest
    else
      c :: SetCondition rest conditionType status reason message now

/-- GetCondition, translated from `GetCondition` in
`api/v1alpha1/common_types.go`: first condition of the given type. -/
def GetCondition (conditions : List Condition) (conditionType : ConditionType) :
    Option Condition :=
  conditions.find? (fun c => c.type == conditionType)

/-- Name plus target namespace of a Kubernetes object.  `nspace` stands for
the object's namespace (that word is reserved in Lean). -/
structure ObjectKey where
  name : String
  nspace : String
deriving DecidableEq, Repr

/-- SecretReference from `api/v1alpha1/common_types.go`: secret name,
optional namespace, and optional override key names (empty string means
"use the default key name", as in the source). -/
structure SecretReference where
  name : String
  nspace : Option String
  accessKeyIDKey : String
  secretAccessKeyKey : String
deriving DecidableEq, Repr

/-- TLSConfig from `api/v1alpha1/common_types.go`; only the `Insecure`
field is read by the resolver (`CABundle` is never consulted there and is
omitted). -/
structure TLSConfig where
  insecure : Bool
deriving DecidableEq, Repr

/-- Reference to an Alias resource (name plus optional namespace), as
used by the resolver through `conn.AliasRef`. -/
structure AliasReference where
  name : String
  nspace : Option String
deriving DecidableEq, Repr

/-- EndpointReference from `api/v1alpha1/common_types.go`. -/
structure EndpointReference where
  name : String
  nspace : Option String
deriving DecidableEq, Repr

/-- MinIOConnection as consumed by `buildClientConfig` in the minio
client source: optional AliasRef, direct URL, deprecated EndpointRef,
optional credentials secret and optional TLS block. -/
structure MinIOConnection where
  aliasRef : Option AliasReference
  url : Option String
  endpointRef : Option EndpointReference
  secretRef : Option SecretReference
  tls : Option TLSConfig
deriving DecidableEq, Repr

/-- The fields of AliasSpec (`api/v1alpha1/alias_types.go`) read by the
resolver: server URL, credentials secret, TLS block, region, path style. -/
structure AliasSpec where
  url : String
  secretRef : SecretReference
  tls : Option TLSConfig
  region : Option String
  pathStyle : Bool
deriving DecidableEq, Repr

/-- The field of AliasStatus read by the resolver. -/
structure AliasStatus where
  ready : Bool
deriving DecidableEq, Repr

/-- Alias resource (spec and status). -/
structure Alias where
  spec : AliasSpec
  status : AliasStatus
deriving DecidableEq, Repr

/-- The fields of EndpointSpec (`api/v1alpha1`, Endpoint types) read by
the resolver; the Endpoint kind is the deprecated predecessor of Alias
and carries the same connection data. -/
structure EndpointSpec where
  url : String
  secretRef : SecretReference
  tls : Option TLSConfig
  region : Option String
  pathStyle : Bool
deriving DecidableEq, Repr

/-- The field of EndpointStatus read by the resolver. -/
structure EndpointStatus where
  ready : Bool
deriving DecidableEq, Repr

/-- Endpoint resource (spec and status). -/
structure Endpoint where
  spec : EndpointSpec
  status : EndpointStatus
deriving DecidableEq, Repr

/-- Kubernetes Secret: its string-data map, modelled as an association
list (`secret.Data[key]` becomes `data.lookup key`). -/
structure Secret where
  data : List (String × String)
deriving DecidableEq, Repr

/-- Read-only view of the backing store consulted by the resolver:
`k8sClient.Get` on Alias, Endpoint and Secret objects, keyed by
name/namespace; `none` models a failing Get (object absent). -/
structure K8sStore where
  aliases : ObjectKey → Option Alias
  endpoints : ObjectKey → Option Endpoint
  secrets : ObjectKey → Option Secret

/-- A store in which every Get fails. -/
def emptyStore : K8sStore :=
  { aliases := fun _ => none, endpoints := fun _ => none, secrets := fun _ => none }

/-- Resolution failures of `buildClientConfig`, classified per the error
taxonomy: a malformed reference (no source set), an unready referenced
Alias/Endpoint, a missing secret or missing secret key, or a failing Get
of the referenced Alias/Endpoint object itself.  Each constructor carries
the formatted message of the corresponding `fmt.Errorf` site. -/
inductive ResolutionError where
  | configurationError (msg : String)
  | notReadyError (msg : String)
  | secretError (msg : String)
  | refLookupError (msg : String)
deriving DecidableEq, Repr

/-- ClientConfig from the minio client source: endpoint URL, credentials,
TLS flags, path style and region. -/
structure ClientConfig where
  endpoint : String
  accessKeyID : String
  secretAccessKey : String
  useSSL : Bool
  insecure : Bool
  pathStyle : Bool
  region : String
deriving DecidableEq, Repr

/-- The initial config value of `buildClientConfig`: SSL on by default,
path style off, everything else zero-valued. -/
def initialClientConfig : ClientConfig :=
  { endpoint := "", accessKeyID := "", secretAccessKey := "",
    useSSL := true, insecure := false, pathStyle := false, region := "" }

/-- Credentials lookup, factoring the block the source repeats for the
alias secret, the endpoint secret and the connection secret: resolve the
secret's namespace (explicit namespace overrides the default), fetch the
secret, then read the access-key and secret-key entries under the
configured key names (falling back to "accessKeyID" / "secretAccessKey"
when unset).  `ctx` is the noun used in the source's messages for this
call site ("alias secret", "endpoint secret" or "secret"). -/
def fetchCredentials (store : K8sStore) (secretRef : SecretReference)
    (defaultNs ctx : String) : Except ResolutionError (String × String) :=
  let secretNamespace := secretRef.nspace.getD defaultNs
  match store.secrets { name := secretRef.name, nspace := secretNamespace } with
  | none =>
    .error (.secretError ("failed to get " ++ ctx ++ " " ++ secretNamespace ++
      "/" ++ secretRef.name))
  | some secret =>
    let accessKeyIDKey :=
      if secretRef.accessKeyIDKey = "" then "accessKeyID"
      else secretRef.accessKeyIDKey
    match secret.data.lookup accessKeyIDKey with
    | none =>
      .error (.secretError ("access key ID not found in " ++ ctx ++ " " ++
        secretNamespace ++ "/" ++ secretRef.name ++ " with key " ++ accessKeyIDKey))
    | some accessKeyID =>
      let secretAccessKeyKey :=
        if secretRef.secretAccessKeyKey = "" then "secretAccessKey"
        else secretRef.secretAccessKeyKey
      match secret.data.lookup secretAccessKeyKey with
      | none =>
        .error (.secretError ("secret access key not found in " ++ ctx ++ " " ++
          secretNamespace ++ "/" ++ secretRef.name ++ " with key " ++
          secretAccessKeyKey))
      | some secretAccessKey => .ok (accessKeyID, secretAccessKey)

/-- The AliasRef branch of `buildClientConfig`: fetch the Alias, require
`Status.Ready`, copy URL / path-style / region / TLS from its spec, then
fetch credentials from the alias's own secret (defaulting to the alias's
namespace). -/
def resolveAliasRef (store : K8sStore) (aliasRef : AliasReference)
    (defaultNamespace : String) : Except ResolutionError ClientConfig :=
  let aliasNamespace := aliasRef.nspace.getD defaultNamespace
  match store.aliases { name := aliasRef.name, nspace := aliasNamespace } with
  | none =>
    .error (.refLookupError ("failed to get alias " ++ aliasNamespace ++ "/" ++
      aliasRef.name))
  | some al =>
    if al.status.ready = false then
      .error (.notReadyError ("alias " ++ aliasNamespace ++ "/" ++ aliasRef.name ++
        " is not ready"))
    else
      let config := { initialClientConfig with
        endpoint := al.spec.url,
        pathStyle := if al.spec.pathStyle then true else initialClientConfig.pathStyle,
        region := match al.spec.region with
          | some r => r
          | none => initialClientConfig.region,
        insecure := match al.spec.tls with
          | some t => t.insecure
          | none => initialClientConfig.insecure }
      match fetchCredentials store al.spec.secretRef aliasNamespace "alias secret" with
      | .error e => .error e
      | .ok (accessKeyID, secretAccessKey) =>
        .ok { config with accessKeyID := accessKeyID,
                          secretAccessKey := secretAccessKey }

/-- The EndpointRef branch of `buildClientConfig`, identical in structure
to the AliasRef branch but reading an Endpoint resource. -/
def resolveEndpointRef (store : K8sStore) (endpointRef : EndpointReference)
    (defaultNamespace : String) : Except ResolutionError ClientConfig :=
  let endpointNamespace := endpointRef.nspace.getD defaultNamespace
  match store.endpoints { name := endpointRef.name, nspace := endpointNamespace } with
  | none =>
    .error (.refLookupError ("failed to get endpoint " ++ endpointNamespace ++
      "/" ++ endpointRef.name))
  | some ep =>
    if ep.status.ready = false then
      .error (.notReadyError ("endpoint " ++ endpointNamespace ++ "/" ++
        endpointRef.name ++ " is not ready"))
    else
      let config := { initialClientConfig with
        endpoint := ep.spec.url,
        pathStyle := if ep.spec.pathStyle then true else initialClientConfig.pathStyle,
        region := match ep.spec.region with
          | some r => r
          | none => initialClientConfig.region,
        insecure := match ep.spec.tls with
          | some t => t.insecure
          | none => initialClientConfig.insecure }
      match fetchCredentials store ep.spec.secretRef endpointNamespace
          "endpoint secret" with
      | .error e => .error e
      | .ok (accessKeyID, secretAccessKey) =>
        .ok { config with accessKeyID := accessKeyID,
                          secretAccessKey := secretAccessKey }

/-- buildClientConfig, translated from the minio client source: the
endpoint source is chosen by an if/else-if chain giving AliasRef
precedence over the direct URL, which takes precedence over the
deprecated EndpointRef; with none of the three set it fails.  After the
branch, when a direct URL and a connection-level SecretRef are both
present, credentials are fetched from that secret and the connection's
own TLS block (if any) overrides the `insecure` flag. -/
def buildClientConfig (store : K8sStore) (conn : MinIOConnection)
    (defaultNamespace : String) : Except ResolutionError ClientConfig :=
  let step1 : Except ResolutionError ClientConfig :=
    match conn.aliasRef with
    | some aliasRef => resolveAliasRef store aliasRef defaultNamespace
    | none =>
      match conn.url with
      | some url => .ok { initialClientConfig with endpoint := url }
      | none =>
        match conn.endpointRef with
        | some endpointRef => resolveEndpointRef store endpointRef defaultNamespace
        | none =>
          .error (.configurationError
            "either AliasRef, URL, or EndpointRef must be specified")
  match step1 with
  | .error e => .error e
  | .ok config =>
    match conn.url, conn.secretRef with
    | some _, some secretRef =>
      match fetchCredentials store secretRef defaultNamespace "secret" with
      | .error e => .error e
      | .ok (accessKeyID, secretAccessKey) =>
        let config := { config with accessKeyID := accessKeyID,
                                    secretAccessKey := secretAccessKey }
        .ok (match conn.tls with
          | some t => { config with insecure := t.insecure }
          | none => config)
    | _, _ => .ok config

/-- Outcome of a Kubernetes write (`r.Update` / `r.Status().Update`):
success, an optimistic-concurrency conflict (`apierrors.IsConflict`), or
any other error. -/
inductive UpdateResult where
  | ok
  | conflict
  | otherError
deriving DecidableEq, Repr

/-- Whether the write returned a non-nil error. -/
def UpdateResult.isErr : UpdateResult → Bool
  | .ok => false
  | .conflict => true
  | .otherError => true

/-- Observable events of one reconcile pass, in issue order.
`finalizerUpdate` is an `r.Update` persisting the resource metadata with
the given finalizer list; `statusWrite` is an `r.Status().Update`
persisting the given status snapshot; `remoteRead` / `remoteMutate` are
non-mutating / mutating calls to the MinIO server, with the call's
success flag. -/
inductive Event (σ : Type) where
  | finalizerUpdate (finalizers : List String) (ok : Bool)
  | statusWrite (st : σ) (res : UpdateResult)
  | remoteRead (op : String) (ok : Bool)
  | remoteMutate (op : String) (ok : Bool)
deriving DecidableEq, Repr

/-- Whether an event is a mutating remote call. -/
def Event.isRemoteMutate {σ : Type} : Event σ → Bool
  | .remoteMutate _ _ => true
  | _ => false

/-- The status snapshot carried by the last successful status write of a
trace, i.e. the persisted status document after the pass. -/
def lastPersistedStatus {σ : Type} (trace : List (Event σ)) : Option σ :=
  trace.foldl
    (fun acc e =>
      match e with
      | .statusWrite st .ok => some st
      | _ => acc)
    none

/-- Number of finalizer-persisting writes in a trace whose finalizer list
no longer contains the given marker, i.e. how many times the pass
persisted the marker's removal. -/
def removalWrites {σ : Type} (marker : String) (trace : List (Event σ)) : Nat :=
  (trace.filter
    (fun e =>
      match e with
      | .finalizerUpdate fs _ => !(fs.contains marker)
      | _ => false)).length

/-- ctrl.Result: requeue delay in milliseconds (`none` for `ctrl.Result{}`). -/
structure CtrlResult where
  requeueAfterMs : Option Nat
deriving DecidableEq, Repr

/-- time.Second in milliseconds. -/
def timeSecondMs : Nat := 1000

/-- time.Minute in milliseconds. -/
def timeMinuteMs : Nat := 60000

/-- time.Hour in milliseconds. -/
def timeHourMs : Nat := 3600000

/-- Result of one reconcile pass: the returned `ctrl.Result`, whether a
non-nil error was returned, the final in-memory resource, and the event
trace. -/
structure PassOut (ρ σ : Type) where
  result : CtrlResult
  isError : Bool
  resource : ρ
  trace : List (Event σ)
deriving DecidableEq, Repr

/-- controllerutil.ContainsFinalizer. -/
def containsFinalizer (finalizers : List String) (f : String) : Bool :=
  finalizers.contains f

/-- controllerutil.AddFinalizer (the caller checks absence first). -/
def addFinalizer (finalizers : List String) (f : String) : List String :=
  finalizers ++ [f]

/-- controllerutil.RemoveFinalizer. -/
def removeFinalizer (finalizers : List String) (f : String) : List String :=
  finalizers.filter (fun x => x != f)

/-- UserFinalizer constant from `api/v1alpha1/user_types.go`. -/
def UserFinalizer : String := "user.minio.mxcd.dev/finalizer"

/-- PolicyFinalizer constant from `api/v1alpha1/policy_types.go`. -/
def PolicyFinalizer : String := "policy.mc-controller.mxcd.de/finalizer"

/-- BucketFinalizer constant from `api/v1alpha1/bucket_types.go`. -/
def BucketFinalizer : String := "bucket.mc-controller.mxcd.de/finalizer"

/-- The fields of UserSpec (`api/v1alpha1/user_types.go`) read by the
User controller.  `status` holds the UserStatusType string ("enabled" /
"disabled"). -/
structure UserSpec where
  connection : MinIOConnection
  username : String
  secretRef : Option SecretReference
  password : Option String
  status : String
  groups : List String
  policies : List String
deriving DecidableEq, Repr

/-- UserStatus from `api/v1alpha1/user_types.go` (times abstract). -/
structure UserStatus where
  conditions : List Condition
  ready : Bool
  username : String
  status : String
  groups : List String
  policies : List String
  creationDate : Option Nat
  lastSyncTime : Option Nat
  observedGeneration : Int
deriving DecidableEq, Repr

/-- User resource: the metadata consulted by the controller (namespace,
generation, deletion timestamp, finalizers) plus spec and status. -/
structure User where
  nspace : String
  generation : Int
  deletionTimestamp : Option Nat
  finalizers : List String
  spec : UserSpec
  status : UserStatus
deriving DecidableEq, Repr

/-- Oracle environment for one User reconcile pass: one field per
external call site, recording that call's outcome, plus the pass's
`time.Now()` instant.  `newClientOk` stands for the whole
`minioclient.NewClient` call (config build plus SDK constructors);
`getUserInfoOk` means `GetUserInfo` returned a nil error, which the
source takes as "the user exists". -/
structure UserEnv where
  now : Nat
  addFinalizerUpdate : UpdateResult
  progressingStatusUpdate : UpdateResult
  newClientOk : Bool
  getUserInfoOk : Bool
  addUserOk : Bool
  setUserOk : Bool
  setUserStatusOk : Bool
  setPolicyOk : Bool
  errorStatusUpdate : UpdateResult
  readyStatusUpdate : UpdateResult
  delNewClientOk : Bool
  delGetUserInfoOk : Bool
  delRemoveUserOk : Bool
  delRemoveFinalizerUpdate : UpdateResult
deriving DecidableEq, Repr

/-- getPassword, translated from the User controller: the inline spec
password wins; otherwise a SecretRef is required, its namespace defaults
to the user's, and the password is read under the key "password" unless
`SecretAccessKeyKey` overrides it (as in the source). -/
def getPassword (store : K8sStore) (user : User) : Except String String :=
  match user.spec.password with
  | some p => .ok p
  | none =>
    match user.spec.secretRef with
    | none => .error "either password or secretRef must be specified"
    | some secretRef =>
      let secretNamespace := secretRef.nspace.getD user.nspace
      match store.secrets { name := secretRef.name, nspace := secretNamespace } with
      | none => .error "failed to get password secret"
      | some secret =>
        let passwordKey :=
          if secretRef.secretAccessKeyKey = "" then "password"
          else secretRef.secretAccessKeyKey
        match secret.data.lookup passwordKey with
        | none => .error ("password not found in secret with key " ++ passwordKey)
        | some p => .ok p

/-- Tail of `reconcileUser` shared by the create and update branches:
`SetUserStatus`, copy of spec fields into status, and the non-fatal
`SetPolicy` call when policies are listed. -/
def reconcileUserTail (env : UserEnv) (user : User)
    (ev : List (Event UserStatus)) :
    CtrlResult × Bool × User × List (Event UserStatus) :=
  let ev := ev ++ [Event.remoteMutate "SetUserStatus" env.setUserStatusOk]
  if env.setUserStatusOk = false then
    ({ requeueAfterMs := some timeMinuteMs }, true, user, ev)
  else
    let user := { user with status := { user.status with
      status := user.spec.status,
      groups := user.spec.groups,
      policies := user.spec.policies } }
    if user.spec.policies.length > 0 then
      ({ requeueAfterMs := some timeHourMs }, false, user,
        ev ++ [Event.remoteMutate "SetPolicy" env.setPolicyOk])
    else
      ({ requeueAfterMs := some timeHourMs }, false, user, ev)

/-- reconcileUser (the inner convergence function of the User
controller): get the password, check existence via `GetUserInfo`, then
`AddUser` (recording the creation date) or `SetUser`, and finish with the
shared tail.  Returns the `ctrl.Result`, the error flag, the updated
resource and the remote-call events. -/
def reconcileUserInner (env : UserEnv) (store : K8sStore) (user : User) :
    CtrlResult × Bool × User × List (Event UserStatus) :=
  match getPassword store user with
  | .error _ => ({ requeueAfterMs := some timeMinuteMs }, true, user, [])
  | .ok _ =>
    let ev : List (Event UserStatus) :=
      [Event.remoteRead "GetUserInfo" env.getUserInfoOk]
    let userExists := env.getUserInfoOk
    if userExists = false then
      let ev := ev ++ [Event.remoteMutate "AddUser" env.addUserOk]
      if env.addUserOk = false then
        ({ requeueAfterMs := some timeMinuteMs }, true, user, ev)
      else
        let user := { user with status :=
          { user.status with creationDate := some env.now } }
        reconcileUserTail env user ev
    else
      let ev := ev ++ [Event.remoteMutate "SetUser" env.setUserOk]
      if env.setUserOk = false then
        ({ requeueAfterMs := some timeMinuteMs }, true, user, ev)
      else
        reconcileUserTail env user ev

/-- handleDeletion of the User controller: with the finalizer present,
build a client (failure requeues after a minute, keeping the finalizer),
check existence via `GetUserInfo` (a nil error means the user exists and
is deleted via `RemoveUser`, whose failure requeues after a minute), then
remove the finalizer and persist. -/
def handleUserDeletion (env : UserEnv) (user : User) : PassOut User UserStatus :=
  if containsFinalizer user.finalizers UserFinalizer then
    if env.delNewClientOk = false then
      { result := { requeueAfterMs := some timeMinuteMs }, isError := false,
        resource := user, trace := [] }
    else
      let ev : List (Event UserStatus) :=
        [Event.remoteRead "GetUserInfo" env.delGetUserInfoOk]
      if env.delGetUserInfoOk then
        let ev := ev ++ [Event.remoteMutate "RemoveUser" env.delRemoveUserOk]
        if env.delRemoveUserOk = false then
          { result := { requeueAfterMs := some timeMinuteMs }, isError := false,
            resource := user, trace := ev }
        else
          let user' := { user with
            finalizers := removeFinalizer user.finalizers UserFinalizer }
          { result := { requeueAfterMs := none },
            isError := env.delRemoveFinalizerUpdate.isErr,
            resource := user',
            trace := ev ++ [Event.finalizerUpdate user'.finalizers
              (env.delRemoveFinalizerUpdate = .ok)] }
      else
        let user' := { user with
          finalizers := removeFinalizer user.finalizers UserFinalizer }
        { result := { requeueAfterMs := none },
          isError := env.delRemoveFinalizerUpdate.isErr,
          resource := user',
          trace := ev ++ [Event.finalizerUpdate user'.finalizers
            (env.delRemoveFinalizerUpdate = .ok)] }
  else
    { result := { requeueAfterMs := none }, isError := false,
      resource := user, trace := [] }

/-- Convergence section of the User controller's Reconcile, entered after
the progressing status was persisted and the client built: run the
convergence function, then persist either the error status (Error
condition, Ready false, `lastSyncTime`) or the ready status (Ready true,
Progressing false, projected username, `lastSyncTime`).  Error-condition
messages keep the source's static prefix; the dynamic `%v` suffix is
elided. -/
def reconcileUserConverge (env : UserEnv) (store : K8sStore) (user : User) :
    PassOut User UserStatus :=
  let inner := reconcileUserInner env store user
  let res := inner.1
  let innerErr := inner.2.1
  let user := inner.2.2.1
  let evInner := inner.2.2.2
  if innerErr then
    let st3 := { user.status with
      conditions := SetCondition user.status.conditions .error .conditionTrue
        "ReconcileError" "Failed to reconcile user" env.now,
      ready := false,
      lastSyncTime := some env.now }
    let user := { user with status := st3 }
    { result := res, isError := true, resource := user,
      trace := evInner ++ [Event.statusWrite st3 env.errorStatusUpdate] }
  else
    let st4 := { user.status with
      conditions := SetCondition
        (SetCondition user.status.conditions .ready .conditionTrue
          "Ready" "User is ready" env.now)
        .progressing .conditionFalse "Ready" "User reconciliation completed"
        env.now,
      ready := true,
      username := user.spec.username,
      lastSyncTime := some env.now }
    let user := { user with status := st4 }
    let ev := evInner ++ [Event.statusWrite st4 env.readyStatusUpdate]
    if env.readyStatusUpdate ≠ .ok then
      { result := { requeueAfterMs := none }, isError := true,
        resource := user, trace := ev }
    else
      { result := res, isError := false, resource := user, trace := ev }

/-- Reconcile of the User controller (the resource has already been
fetched): deletion branch; otherwise attach-and-persist the finalizer and
return; otherwise persist the progressing status (with
`observedGeneration := generation`, any write error returned as-is),
build the client (failure sets the Error condition and requeues after a
minute), then run the convergence section. -/
def reconcileUser (env : UserEnv) (store : K8sStore) (user : User) :
    PassOut User UserStatus :=
  if user.deletionTimestamp.isSome then
    handleUserDeletion env user
  else if containsFinalizer user.finalizers UserFinalizer = false then
    let user' := { user with finalizers := addFinalizer user.finalizers UserFinalizer }
    { result := { requeueAfterMs := none },
      isError := env.addFinalizerUpdate.isErr,
      resource := user',
      trace := [Event.finalizerUpdate user'.finalizers
        (env.addFinalizerUpdate = .ok)] }
  else
    let st1 := { user.status with
      conditions := SetCondition user.status.conditions .progressing
        .conditionTrue "Reconciling" "Reconciling user" env.now,
      observedGeneration := user.generation }
    let user := { user with status := st1 }
    let ev : List (Event UserStatus) :=
      [Event.statusWrite st1 env.progressingStatusUpdate]
    if env.progressingStatusUpdate ≠ .ok then
      { result := { requeueAfterMs := none }, isError := true,
        resource := user, trace := ev }
    else if env.newClientOk = false then
      let st2 := { user.status with
        conditions := SetCondition user.status.conditions .error .conditionTrue
          "ClientError" "Failed to create MinIO client" env.now,
        ready := false }
      let user := { user with status := st2 }
      { result := { requeueAfterMs := some timeMinuteMs }, isError := false,
        resource := user,
        trace := ev ++ [Event.statusWrite st2 env.errorStatusUpdate] }
    else
      let conv := reconcileUserConverge env store user
      { conv with trace := ev ++ conv.trace }

/-- The fields of PolicySpec (`api/v1alpha1/policy_types.go`) read by the
Policy controller; `policy` holds the raw policy document bytes as a
string. -/
structure PolicySpec where
  connection : MinIOConnection
  policyName : String
  policy : String
deriving DecidableEq, Repr

/-- PolicyStatus from `api/v1alpha1/policy_types.go` (times abstract). -/
structure PolicyStatus where
  conditions : List Condition
  ready : Bool
  policyName : String
  policyHash : String
  creationDate : Option Nat
  lastSyncTime : Option Nat
  observedGeneration : Int
deriving DecidableEq, Repr

/-- Policy resource: metadata consulted by the controller plus spec and
status. -/
structure Policy where
  nspace : String
  generation : Int
  deletionTimestamp : Option Nat
  finalizers : List String
  spec : PolicySpec
  status : PolicyStatus
deriving DecidableEq, Repr

/-- Oracle environment for one Policy reconcile pass.
`infoCannedPolicyExists` is the source's `err == nil && len(existing) > 0`
on `InfoCannedPolicy`; `policyHashValue` stands for the (pure, opaque)
hex-encoded SHA-256 of the spec's policy document computed in the pass. -/
structure PolicyEnv where
  now : Nat
  addFinalizerUpdate : UpdateResult
  progressingStatusUpdate : UpdateResult
  newClientOk : Bool
  infoCannedPolicyExists : Bool
  addCannedPolicyOk : Bool
  errorStatusUpdate : UpdateResult
  readyStatusUpdate : UpdateResult
  delNewClientOk : Bool
  delRemoveCannedPolicyOk : Bool
  delRemoveFinalizerUpdate : UpdateResult
  policyHashValue : String
deriving DecidableEq, Repr

/-- reconcilePolicy (the inner convergence function of the Policy
controller): reject an empty document, hash the desired document, check
the remote policy via `InfoCannedPolicy`, and call `AddCannedPolicy` only
when the policy is new or the stored hash differs; record the creation
date on first creation and store the new hash. -/
def reconcilePolicyInner (env : PolicyEnv) (policy : Policy) :
    CtrlResult × Bool × Policy × List (Event PolicyStatus) :=
  if policy.spec.policy = "" then
    ({ requeueAfterMs := none }, true, policy, [])
  else
    let hash := env.policyHashValue
    let ev : List (Event PolicyStatus) :=
      [Event.remoteRead "InfoCannedPolicy" env.infoCannedPolicyExists]
    let exists_ := env.infoCannedPolicyExists
    if exists_ = false || policy.status.policyHash != hash then
      let ev := ev ++ [Event.remoteMutate "AddCannedPolicy" env.addCannedPolicyOk]
      if env.addCannedPolicyOk = false then
        ({ requeueAfterMs := some timeMinuteMs }, true, policy, ev)
      else
        let policy :=
          if exists_ = false then
            { policy with status := { policy.status with creationDate := some env.now } }
          else policy
        let policy := { policy with status := { policy.status with policyHash := hash } }
        ({ requeueAfterMs := some timeHourMs }, false, policy, ev)
    else
      let policy := { policy with status := { policy.status with policyHash := hash } }
      ({ requeueAfterMs := some timeHourMs }, false, policy, ev)

/-- handleDeletion of the Policy controller: with the finalizer present,
build a client (failure requeues after a minute, keeping the finalizer),
remove the canned policy (failure requeues after a minute), then remove
the finalizer and persist (a failing persist is returned as an error). -/
def handlePolicyDeletion (env : PolicyEnv) (policy : Policy) :
    PassOut Policy PolicyStatus :=
  if containsFinalizer policy.finalizers PolicyFinalizer then
    if env.delNewClientOk = false then
      { result := { requeueAfterMs := some timeMinuteMs }, isError := false,
        resource := policy, trace := [] }
    else
      let ev : List (Event PolicyStatus) :=
        [Event.remoteMutate "RemoveCannedPolicy" env.delRemoveCannedPolicyOk]
      if env.delRemoveCannedPolicyOk = false then
        { result := { requeueAfterMs := some timeMinuteMs }, isError := false,
          resource := policy, trace := ev }
      else
        let policy' := { policy with
          finalizers := removeFinalizer policy.finalizers PolicyFinalizer }
        { result := { requeueAfterMs := none },
          isError := env.delRemoveFinalizerUpdate.isErr,
          resource := policy',
          trace := ev ++ [Event.finalizerUpdate policy'.finalizers
            (env.delRemoveFinalizerUpdate = .ok)] }
  else
    { result := { requeueAfterMs := none }, isError := false,
      resource := policy, trace := [] }

/-- Body of the Policy controller's Reconcile after deletion handling and
finalizer attachment: persist the progressing status (conflicts requeue
after one second), build the client, converge and persist the terminal
status (again mapping conflicts to a one-second requeue). -/
def reconcilePolicyCore (env : PolicyEnv) (policy : Policy) :
    PassOut Policy PolicyStatus :=
      let st1 := { policy.status with
        conditions := SetCondition policy.status.conditions .progressing
          .conditionTrue "Reconciling" "Reconciling policy" env.now,
        observedGeneration := policy.generation }
      let policy := { policy with status := st1 }
      let ev : List (Event PolicyStatus) :=
        [Event.statusWrite st1 env.progressingStatusUpdate]
      if env.progressingStatusUpdate = .conflict then
        { result := { requeueAfterMs := some timeSecondMs }, isError := false,
          resource := policy, trace := ev }
      else if env.progressingStatusUpdate = .otherError then
        { result := { requeueAfterMs := none }, isError := true,
          resource := policy, trace := ev }
      else if env.newClientOk = false then
        let st2 := { policy.status with
          conditions := SetCondition policy.status.conditions .error .conditionTrue
            "ClientError" "Failed to create MinIO client" env.now,
          ready := false }
        let policy := { policy with status := st2 }
        { result := { requeueAfterMs := some timeMinuteMs }, isError := false,
          resource := policy,
          trace := ev ++ [Event.statusWrite st2 env.errorStatusUpdate] }
      else
        let inner := reconcilePolicyInner env policy
        let res := inner.1
        let innerErr := inner.2.1
        let policy := inner.2.2.1
        let evInner := inner.2.2.2
        if innerErr then
          let st3 := { policy.status with
            conditions := SetCondition policy.status.conditions .error .conditionTrue
              "ReconcileError" "Failed to reconcile policy" env.now,
            ready := false,
            lastSyncTime := some env.now }
          let policy := { policy with status := st3 }
          { result := res, isError := true, resource := policy,
            trace := ev ++ evInner ++ [Event.statusWrite st3 env.errorStatusUpdate] }
        else
          let st4 := { policy.status with
            conditions := SetCondition
              (SetCondition policy.status.conditions .ready .conditionTrue
                "Ready" "Policy is ready" env.now)
              .progressing .conditionFalse "Ready"
              "Policy reconciliation completed" env.now,
            ready := true,
            policyName := policy.spec.policyName,
            lastSyncTime := some env.now }
          let policy := { policy with status := st4 }
          let ev := ev ++ evInner ++ [Event.statusWrite st4 env.readyStatusUpdate]
          if env.readyStatusUpdate = .conflict then
            { result := { requeueAfterMs := some timeSecondMs }, isError := false,
              resource := policy, trace := ev }
          else if env.readyStatusUpdate = .otherError then
            { result := { requeueAfterMs := none }, isError := true,
              resource := policy, trace := ev }
          else
            { result := res, isError := false, resource := policy, trace := ev }

/-- Reconcile of the Policy controller (the resource has already been
fetched).  Unlike the User controller it continues the same pass after
persisting a freshly attached finalizer (returning early only when that
persist fails), and it maps conflict errors on the progressing and ready
status writes to a one-second requeue instead of returning them. -/
def reconcilePolicy (env : PolicyEnv) (policy : Policy) :
    PassOut Policy PolicyStatus :=
  if policy.deletionTimestamp.isSome then
    handlePolicyDeletion env policy
  else if containsFinalizer policy.finalizers PolicyFinalizer = false then
    let policy := { policy with
      finalizers := addFinalizer policy.finalizers PolicyFinalizer }
    let evFin : List (Event PolicyStatus) :=
      [Event.finalizerUpdate policy.finalizers (env.addFinalizerUpdate = .ok)]
    if env.addFinalizerUpdate.isErr then
      { result := { requeueAfterMs := none }, isError := true,
        resource := policy, trace := evFin }
    else
      let core := reconcilePolicyCore env policy
      { core with trace := evFin ++ core.trace }
  else
    reconcilePolicyCore env policy

/-- Bucket resource as consulted by the Bucket controller's deletion
handler: finalizers and the bucket name from the spec. -/
structure Bucket where
  finalizers : List String
  bucketName : String
deriving DecidableEq, Repr

/-- Oracle environment for the Bucket controller's deletion handler.
`bucketExistsResult` models `S3.BucketExists`: `none` is a failing call,
`some b` a successful call reporting existence `b`. -/
structure BucketDelEnv where
  delNewClientOk : Bool
  bucketExistsResult : Option Bool
  emptyBucketOk : Bool
  removeBucketOk : Bool
  delRemoveFinalizerUpdate : UpdateResult
deriving DecidableEq, Repr

/-- Removal tail of the Bucket deletion handler: remove the finalizer and
persist. -/
def bucketRemoveFinalizerStep (env : BucketDelEnv) (bucket : Bucket)
    (ev : List (Event Unit)) : PassOut Bucket Unit :=
  let bucket' := { bucket with
    finalizers := removeFinalizer bucket.finalizers BucketFinalizer }
  { result := { requeueAfterMs := none },
    isError := env.delRemoveFinalizerUpdate.isErr,
    resource := bucket',
    trace := ev ++ [Event.finalizerUpdate bucket'.finalizers
      (env.delRemoveFinalizerUpdate = .ok)] }

/-- handleDeletion of the Bucket controller: with the finalizer present,
build a client (failure requeues after a minute), check existence with
`BucketExists` (a failing check requeues after a minute); if the bucket
exists it is emptied object by object and removed (any failure requeues
after a minute); on success, or when the bucket does not exist, the
finalizer is removed and persisted. -/
def handleBucketDeletion (env : BucketDelEnv) (bucket : Bucket) :
    PassOut Bucket Unit :=
  if containsFinalizer bucket.finalizers BucketFinalizer then
    if env.delNewClientOk = false then
      { result := { requeueAfterMs := some timeMinuteMs }, isError := false,
        resource := bucket, trace := [] }
    else
      match env.bucketExistsResult with
      | none =>
        { result := { requeueAfterMs := some timeMinuteMs }, isError := false,
          resource := bucket, trace := [Event.remoteRead "BucketExists" false] }
      | some true =>
        let ev : List (Event Unit) := [Event.remoteRead "BucketExists" true]
        let ev := ev ++ [Event.remoteMutate "RemoveObjects" env.emptyBucketOk]
        if env.emptyBucketOk = false then
          { result := { requeueAfterMs := some timeMinuteMs }, isError := false,
            resource := bucket, trace := ev }
        else
          let ev := ev ++ [Event.remoteMutate "RemoveBucket" env.removeBucketOk]
          if env.removeBucketOk = false then
            { result := { requeueAfterMs := some timeMinuteMs }, isError := false,
              resource := bucket, trace := ev }
          else
            bucketRemoveFinalizerStep env bucket ev
      | some false =>
        bucketRemoveFinalizerStep env bucket [Event.remoteRead "BucketExists" true]
  else
    { result := { requeueAfterMs := none }, isError := false,
      resource := bucket, trace := [] }

/-- Connection with none of AliasRef, URL, EndpointRef set. -/
def connZeroSources : MinIOConnection :=
  { aliasRef := none, url := none, endpointRef := none, secretRef := none, tls := none }

/-- Connection with only a direct URL set (no SecretRef). -/
def connURLOnly : MinIOConnection :=
  { aliasRef := none, url := some "http://minio:9000", endpointRef := none,
    secretRef := none, tls := none }

/-- Connection with both a direct URL and an EndpointRef set. -/
def connURLandEndpoint : MinIOConnection :=
  { aliasRef := none, url := some "http://minio:9000",
    endpointRef := some { name := "ep", nspace := none },
    secretRef := none, tls := none }

/-- Connection with only an AliasRef set. -/
def connAliasOnly : MinIOConnection :=
  { aliasRef := some { name := "a", nspace := none }, url := none,
    endpointRef := none, secretRef := none, tls := none }

/-- A secret holding valid credentials under the default key names. -/
def validSecret : Secret :=
  { data := [("accessKeyID", "k"), ("secretAccessKey", "s")] }

/-- An alias whose status is not ready but whose secret is valid. -/
def unreadyAlias : Alias :=
  { spec := { url := "http://alias:9000",
              secretRef := { name := "s1", nspace := none,
                             accessKeyIDKey := "", secretAccessKeyKey := "" },
              tls := none, region := none, pathStyle := false },
    status := { ready := false } }

/-- Store holding the unready alias and its (valid) secret. -/
def unreadyAliasStore : K8sStore :=
  { aliases := fun k =>
      if k = { name := "a", nspace := "default" } then some unreadyAlias else none,
    endpoints := fun _ => none,
    secrets := fun k =>
      if k = { name := "s1", nspace := "default" } then some validSecret else none }

/-- A ready alias whose own TLS block sets `insecure := false` and whose
secret is `s1`. -/
def readyAlias : Alias :=
  { spec := { url := "http://alias:9000",
              secretRef := { name := "s1", nspace := none,
                             accessKeyIDKey := "", secretAccessKeyKey := "" },
              tls := some { insecure := false }, region := none, pathStyle := false },
    status := { ready := true } }

/-- Store holding the ready alias plus two credential secrets. -/
def readyAliasStore : K8sStore :=
  { aliases := fun k =>
      if k = { name := "a", nspace := "default" } then some readyAlias else none,
    endpoints := fun _ => none,
    secrets := fun k =>
      if k = { name := "s1", nspace := "default" } then
        some { data := [("accessKeyID", "ak1"), ("secretAccessKey", "sk1")] }
      else if k = { name := "s2", nspace := "default" } then
        some { data := [("accessKeyID", "ak2"), ("secretAccessKey", "sk2")] }
      else none }

/-- Connection carrying an AliasRef together with a direct URL, its own
SecretRef (`s2`) and its own TLS block (`insecure := true`). -/
def connAliasPlusURL : MinIOConnection :=
  { aliasRef := some { name := "a", nspace := none },
    url := some "http://direct:9000",
    endpointRef := none,
    secretRef := some { name := "s2", nspace := none,
                        accessKeyIDKey := "", secretAccessKeyKey := "" },
    tls := some { insecure := true } }

/-- Connection with a direct URL and a SecretRef naming the secret
"creds" (default key names). -/
def connURLWithSecret : MinIOConnection :=
  { aliasRef := none, url := some "http://minio:9000", endpointRef := none,
    secretRef := some { name := "creds", nspace := none,
                        accessKeyIDKey := "", secretAccessKeyKey := "" },
    tls := none }

/-- Example user spec (inline password, direct-URL connection). -/
def exUserSpec : UserSpec :=
  { connection := connURLOnly, username := "alice", secretRef := none,
    password := some "pw", status := "enabled", groups := [], policies := [] }

/-- Example user status: last successful pass recorded generation 3. -/
def exUserStatus : UserStatus :=
  { conditions := [], ready := false, username := "", status := "",
    groups := [], policies := [], creationDate := none, lastSyncTime := none,
    observedGeneration := 3 }

/-- Example user at generation 5 with the finalizer attached. -/
def exUser : User :=
  { nspace := "default", generation := 5, deletionTimestamp := none,
    finalizers := [UserFinalizer], spec := exUserSpec, status := exUserStatus }

/-- Example user without the finalizer. -/
def exUserNoFin : User := { exUser with finalizers := [] }

/-- Example user being deleted. -/
def exUserDeleting : User := { exUser with deletionTimestamp := some 10 }

/-- User environment in which every external call succeeds at instant 42. -/
def exEnvOk : UserEnv :=
  { now := 42, addFinalizerUpdate := .ok, progressingStatusUpdate := .ok,
    newClientOk := true, getUserInfoOk := true, addUserOk := true,
    setUserOk := true, setUserStatusOk := true, setPolicyOk := true,
    errorStatusUpdate := .ok, readyStatusUpdate := .ok, delNewClientOk := true,
    delGetUserInfoOk := true, delRemoveUserOk := true,
    delRemoveFinalizerUpdate := .ok }

/-- User environment in which only the MinIO client construction fails. -/
def cexEnvClientFail : UserEnv := { exEnvOk with newClientOk := false }

/-- User environment in which the progressing status write hits an
optimistic-concurrency conflict. -/
def cexEnvConflict : UserEnv := { exEnvOk with progressingStatusUpdate := .conflict }

/-- Example policy at generation 7 with the finalizer attached. -/
def exPolicy : Policy :=
  { nspace := "default", generation := 7, deletionTimestamp := none,
    finalizers := [PolicyFinalizer],
    spec := { connection := connURLOnly, policyName := "pol", policy := "doc" },
    status := { conditions := [], ready := false, policyName := "",
                policyHash := "", creationDate := none, lastSyncTime := none,
                observedGeneration := 2 } }

/-- Example policy without the finalizer. -/
def exPolicyNoFin : Policy := { exPolicy with finalizers := [] }

/-- Policy environment in which every external call succeeds at instant 42. -/
def exPolicyEnv : PolicyEnv :=
  { now := 42, addFinalizerUpdate := .ok, progressingStatusUpdate := .ok,
    newClientOk := true, infoCannedPolicyExists := true, addCannedPolicyOk := true,
    errorStatusUpdate := .ok, readyStatusUpdate := .ok, delNewClientOk := true,
    delRemoveCannedPolicyOk := true, delRemoveFinalizerUpdate := .ok,
    policyHashValue := "h" }

/-- Policy environment in which the progressing status write conflicts. -/
def cexPolicyEnvConflict : PolicyEnv :=
  { exPolicyEnv with progressingStatusUpdate := .conflict }

/-- Example bucket with the finalizer attached. -/
def exBucket : Bucket := { finalizers := [BucketFinalizer], bucketName := "bkt" }

/-- Bucket deletion environment in which every call succeeds. -/
def exBucketDelEnv : BucketDelEnv :=
  { delNewClientOk := true, bucketExistsResult := some true,
    emptyBucketOk := true, removeBucketOk := true,
    delRemoveFinalizerUpdate := .ok }

/-- Every condition produced by SetCondition either has the written type
or was already in the list. -/
theorem setCondition_mem_cases (conditions : List Condition) (t : ConditionType)
    (st : ConditionStatus) (r m : String) (now : Nat) :
    ∀ c' ∈ SetCondition conditions t st r m now, c'.type = t ∨ c' ∈ conditions := by
  induction conditions with
  | nil =>
    intro c' hc'
    simp only [SetCondition, List.mem_singleton] at hc'
    subst hc'
    exact Or.inl rfl
  | cons c rest ih =>
    intro c' hc'
    simp only [SetCondition] at hc'
    by_cases hct : c.type = t
    · rw [if_pos hct] at hc'
      by_cases hcs : c.status ≠ st
      · rw [if_pos hcs] at hc'
        rcases List.mem_cons.mp hc' with h | h
        · subst h; exact Or.inl hct
        · exact Or.inr (List.mem_cons_of_mem _ h)
      · rw [if_neg hcs] at hc'
        rcases List.mem_cons.mp hc' with h | h
        · subst h; exact Or.inl hct
        · exact Or.inr (List.mem_cons_of_mem _ h)
    · rw [if_neg hct] at hc'
      rcases List.mem_cons.mp hc' with h | h
      · subst h; exact Or.inr (List.mem_cons_self _ _)
      · rcases ih c' h with h' | h'
        · exact Or.inl h'
        · exact Or.inr (List.mem_cons_of_mem _ h')

/-- SetCondition preserves pairwise-distinct condition types. -/
theorem setCondition_pairwise (conditions : List Condition) (t : ConditionType)
    (st : ConditionStatus) (r m : String) (now : Nat)
    (h : conditions.Pairwise (fun a b => a.type ≠ b.type)) :
    (SetCondition conditions t st r m now).Pairwise (fun a b => a.type ≠ b.type) := by
  induction conditions with
  | nil => simp [SetCondition]
  | cons c rest ih =>
    rcases List.pairwise_cons.mp h with ⟨hc, hrest⟩
    simp only [SetCondition]
    by_cases hct : c.type = t
    · rw [if_pos hct]
      by_cases hcs : c.status ≠ st
      · rw [if_pos hcs]
        exact List.pairwise_cons.mpr ⟨fun b hb => hc b hb, hrest⟩
      · rw [if_neg hcs]
        exact List.pairwise_cons.mpr ⟨fun b hb => hc b hb, hrest⟩
    · rw [if_neg hct]
      refine List.pairwise_cons.mpr ⟨?_, ih hrest⟩
      intro b hb
      rcases setCondition_mem_cases rest t st r m now b hb with h' | h'
      · rw [h']; exact hct
      · exact hc b h'

/-- The condition of the written type after SetCondition: reason and
message are always replaced, while status and last-transition time change
exactly when the status differs. -/
theorem getCondition_setCondition (conditions : List Condition) (t : ConditionType)
    (st : ConditionStatus) (r m : String) (now : Nat) :
    ∀ c, GetCondition conditions t = some c →
      GetCondition (SetCondition conditions t st r m now) t =
        some (if c.status = st
          then { c with reason := r, message := m }
          else { c with status := st, lastTransitionTime := now, reason := r, message := m }) := by
  induction conditions with
  | nil => intro c hc; simp [GetCondition] at hc
  | cons c0 rest ih =>
    intro c hc
    by_cases hct : c0.type = t
    · have hhead : GetCondition (c0 :: rest) t = some c0 := by
        simp [GetCondition, List.find?_cons, hct]
      rw [hhead] at hc
      injection hc with hc
      subst hc
      simp only [SetCondition, if_pos hct]
      by_cases hcs : c0.status = st
      · rw [if_neg (by simp [hcs]), if_pos hcs]
        simp [GetCondition, List.find?_cons, hct]
      · rw [if_pos hcs, if_neg hcs]
        simp [GetCondition, List.find?_cons, hct]
    · have htail : GetCondition (c0 :: rest) t = GetCondition rest t := by
        simp [GetCondition, List.find?_cons, hct]
      rw [htail] at hc
      simp only [SetCondition, if_neg hct]
      have h := ih c hc
      simpa [GetCondition, List.find?_cons, hct] using h

/-- Conditions of other types survive SetCondition unchanged. -/
theorem mem_setCondition_of_type_ne (conditions : List Condition) (t : ConditionType)
    (st : ConditionStatus) (r m : String) (now : Nat) :
    ∀ c ∈ conditions, c.type ≠ t → c ∈ SetCondition conditions t st r m now := by
  induction conditions with
  | nil => intro c hc; cases hc
  | cons c0 rest ih =>
    intro c hc hne
    simp only [SetCondition]
    by_cases hct : c0.type = t
    · rw [if_pos hct]
      rcases List.mem_cons.mp hc with h | h
      · subst h; exact absurd hct hne
      · split
        · exact List.mem_cons_of_mem _ h
        · exact List.mem_cons_of_mem _ h
    · rw [if_neg hct]
      rcases List.mem_cons.mp hc with h | h
      · subst h; exact List.mem_cons_self _ _
      · exact List.mem_cons_of_mem _ (ih c h hne)

/-- C5: SetCondition preserves the at-most-one-condition-per-type
invariant; the written type's condition keeps its last-transition time
when only reason or message change and moves it to `now` exactly when the
boolean status flips; all other conditions are untouched. -/
theorem C5_setCondition_invariants (conditions : List Condition) (t : ConditionType)
    (st : ConditionStatus) (reason message : String) (now : Nat) :
    (conditions.Pairwise (fun a b => a.type ≠ b.type) →
      (SetCondition conditions t st reason message now).Pairwise
        (fun a b => a.type ≠ b.type)) ∧
    (∀ c, GetCondition conditions t = some c →
      GetCondition (SetCondition conditions t st reason message now) t =
        some (if c.status = st
          then { c with reason := reason, message := message }
          else { c with status := st, lastTransitionTime := now, reason := reason, message := message })) ∧
    (∀ c ∈ conditions, c.type ≠ t →
      c ∈ SetCondition conditions t st reason message now) :=
  ⟨fun h => setCondition_pairwise conditions t st reason message now h,
   getCondition_setCondition conditions t st reason message now,
   mem_setCondition_of_type_ne conditions t st reason message now⟩

/-- Witness for C5 at a concrete list: re-setting Ready with an unchanged
status replaces only reason and message and keeps transition time 5. -/
theorem C5_setCondition_invariants_w :
    GetCondition (SetCondition
      [{ type := .ready, status := .conditionTrue, lastTransitionTime := 5,
         reason := "r0", message := "m0" }] .ready .conditionTrue "r1" "m1" 9) .ready =
      some { type := .ready, status := .conditionTrue, lastTransitionTime := 5,
             reason := "r1", message := "m1" } := by
  have h := (C5_setCondition_invariants
      [{ type := .ready, status := .conditionTrue, lastTransitionTime := 5,
         reason := "r0", message := "m0" }] .ready .conditionTrue "r1" "m1" 9).2.1
      { type := .ready, status := .conditionTrue, lastTransitionTime := 5,
        reason := "r0", message := "m0" } (by decide)
  simpa using h

/-- C3 counterexample: a connection with two of the three sources set (a
direct URL and an EndpointRef) resolves successfully instead of failing
with a ConfigurationError — the URL simply takes precedence. -/
theorem C3_multiple_sources_cex :
    buildClientConfig emptyStore connURLandEndpoint "default" =
      .ok { endpoint := "http://minio:9000", accessKeyID := "",
            secretAccessKey := "", useSSL := true, insecure := false,
            pathStyle := false, region := "" } := rfl

/-- C3 (amended): with none of the three sources set, resolution fails
with the ConfigurationError; with several sources set there is no
ambiguity error — an AliasRef makes the EndpointRef irrelevant, and
absent an AliasRef a direct URL makes the EndpointRef irrelevant. -/
theorem C3_source_selection :
    (∀ (store : K8sStore) (conn : MinIOConnection) (ns : String),
      conn.aliasRef = none → conn.url = none → conn.endpointRef = none →
      buildClientConfig store conn ns =
        .error (.configurationError
          "either AliasRef, URL, or EndpointRef must be specified")) ∧
    (∀ (store : K8sStore) (conn : MinIOConnection) (ns : String)
        (ar : AliasReference),
      conn.aliasRef = some ar →
      buildClientConfig store conn ns =
        buildClientConfig store { conn with endpointRef := none } ns) ∧
    (∀ (store : K8sStore) (conn : MinIOConnection) (ns : String) (u : String),
      conn.aliasRef = none → conn.url = some u →
      buildClientConfig store conn ns =
        buildClientConfig store { conn with endpointRef := none } ns) := by
  refine ⟨?_, ?_, ?_⟩
  · intro store conn ns h1 h2 h3
    obtain ⟨a, u, e, s, t⟩ := conn
    obtain rfl : a = none := h1
    obtain rfl : u = none := h2
    obtain rfl : e = none := h3
    rfl
  · intro store conn ns ar h1
    obtain ⟨a, u, e, s, t⟩ := conn
    obtain rfl : a = some ar := h1
    rfl
  · intro store conn ns u0 h1 h2
    obtain ⟨a, u, e, s, t⟩ := conn
    obtain rfl : a = none := h1
    obtain rfl : u = some u0 := h2
    rfl

/-- Witness for C3 (amended) at the zero-source connection. -/
theorem C3_source_selection_w :
    buildClientConfig emptyStore connZeroSources "default" =
      .error (.configurationError
        "either AliasRef, URL, or EndpointRef must be specified") :=
  C3_source_selection.1 emptyStore connZeroSources "default" rfl rfl rfl

/-- C4: a reference to an Alias (or, with no alias and no URL, an
Endpoint) whose status is not ready fails with NotReadyError for every
store — in particular for any contents of the secrets map, since the
readiness check fires before any secret lookup. -/
theorem C4_not_ready (store : K8sStore) (conn : MinIOConnection) (ns : String) :
    (∀ (ar : AliasReference) (al : Alias),
      conn.aliasRef = some ar →
      store.aliases { name := ar.name, nspace := ar.nspace.getD ns } = some al →
      al.status.ready = false →
      buildClientConfig store conn ns =
        .error (.notReadyError ("alias " ++ ar.nspace.getD ns ++ "/" ++
          ar.name ++ " is not ready"))) ∧
    (∀ (er : EndpointReference) (ep : Endpoint),
      conn.aliasRef = none → conn.url = none → conn.endpointRef = some er →
      store.endpoints { name := er.name, nspace := er.nspace.getD ns } = some ep →
      ep.status.ready = false →
      buildClientConfig store conn ns =
        .error (.notReadyError ("endpoint " ++ er.nspace.getD ns ++ "/" ++
          er.name ++ " is not ready"))) := by
  constructor
  · intro ar al h1 hlook hready
    obtain ⟨a, u, e, s, t⟩ := conn
    obtain rfl : a = some ar := h1
    simp only [buildClientConfig, resolveAliasRef, hlook, hready]
    rfl
  · intro er ep h1 h2 h3 hlook hready
    obtain ⟨a, u, e, s, t⟩ := conn
    obtain rfl : a = none := h1
    obtain rfl : u = none := h2
    obtain rfl : e = some er := h3
    simp only [buildClientConfig, resolveEndpointRef, hlook, hready]
    rfl

/-- Witness for C4: the unready alias with a fully valid secret in the
store still yields NotReadyError. -/
theorem C4_not_ready_w :
    buildClientConfig unreadyAliasStore connAliasOnly "default" =
      .error (.notReadyError "alias default/a is not ready") := by
  have h := (C4_not_ready unreadyAliasStore connAliasOnly "default").1
    { name := "a", nspace := none } unreadyAlias rfl (by decide) rfl
  exact h.trans (congrArg Except.error (by decide))

/-- C8 counterexample: a connection that resolves via an AliasRef (the
endpoint comes from the alias, whose own TLS block says
`insecure := false` and whose secret holds ak1/sk1) but also carries a
direct URL, its own SecretRef and its own TLS block ends up with the
connection-level credentials ak2/sk2 and `insecure := true` — the
dependent resource's overrides are applied, not ignored. -/
theorem C8_override_cex :
    buildClientConfig readyAliasStore connAliasPlusURL "default" =
      .ok { endpoint := "http://alias:9000", accessKeyID := "ak2",
            secretAccessKey := "sk2", useSSL := true, insecure := true,
            pathStyle := false, region := "" } := by rfl

/-- C8 (amended): when the connection has no direct URL, its own
SecretRef and TLS block are ignored, and a resolution through an AliasRef
(resp. EndpointRef) copies endpoint, path style, region and the
TLS-insecure flag from the referenced resource's spec alone; only when a
direct URL is set alongside are the connection's SecretRef credentials
and TLS override applied on top. -/
theorem C8_alias_endpoint_fields :
    (∀ (store : K8sStore) (conn : MinIOConnection) (ns : String),
      conn.url = none →
      buildClientConfig store conn ns =
        buildClientConfig store { conn with secretRef := none, tls := none } ns) ∧
    (∀ (store : K8sStore) (conn : MinIOConnection) (ns : String)
        (ar : AliasReference) (al : Alias) (cfg : ClientConfig),
      conn.aliasRef = some ar → conn.url = none →
      store.aliases { name := ar.name, nspace := ar.nspace.getD ns } = some al →
      buildClientConfig store conn ns = .ok cfg →
      cfg.endpoint = al.spec.url ∧ cfg.pathStyle = al.spec.pathStyle ∧
      cfg.region = al.spec.region.getD "" ∧
      cfg.insecure = (match al.spec.tls with
        | some tc => tc.insecure
        | none => false)) ∧
    (∀ (store : K8sStore) (conn : MinIOConnection) (ns : String)
        (er : EndpointReference) (ep : Endpoint) (cfg : ClientConfig),
      conn.aliasRef = none → conn.url = none → conn.endpointRef = some er →
      store.endpoints { name := er.name, nspace := er.nspace.getD ns } = some ep →
      buildClientConfig store conn ns = .ok cfg →
      cfg.endpoint = ep.spec.url ∧ cfg.pathStyle = ep.spec.pathStyle ∧
      cfg.region = ep.spec.region.getD "" ∧
      cfg.insecure = (match ep.spec.tls with
        | some tc => tc.insecure
        | none => false)) := by
  refine ⟨?_, ?_, ?_⟩
  · intro store conn ns h1
    obtain ⟨a, u, e, s, t⟩ := conn
    obtain rfl : u = none := h1
    rfl
  · intro store conn ns ar al cfg h1 h2 hlook hcfg
    obtain ⟨a, u, e, s, t⟩ := conn
    obtain rfl : a = some ar := h1
    obtain rfl : u = none := h2
    simp only [buildClientConfig, resolveAliasRef, hlook] at hcfg
    rcases hready : al.status.ready with _ | _
    · simp [hready] at hcfg
    · simp only [hready] at hcfg
      rw [if_neg (by decide : ¬(true = false))] at hcfg
      rcases hfc : fetchCredentials store al.spec.secretRef (ar.nspace.getD ns)
          "alias secret" with e2 | ⟨k1, k2⟩
      · simp [hfc] at hcfg
      · simp only [hfc] at hcfg
        injection hcfg with hcfg
        subst hcfg
        refine ⟨rfl, ?_, ?_, ?_⟩
        · rcases hps : al.spec.pathStyle with _ | _ <;>
            simp [hps, initialClientConfig]
        · rcases hr : al.spec.region with _ | _ <;>
            simp [hr, initialClientConfig]
        · rcases ht : al.spec.tls with _ | _ <;>
            simp [ht, initialClientConfig]
  · intro store conn ns er ep cfg h1 h2 h3 hlook hcfg
    obtain ⟨a, u, e, s, t⟩ := conn
    obtain rfl : a = none := h1
    obtain rfl : u = none := h2
    obtain rfl : e = some er := h3
    simp only [buildClientConfig, resolveEndpointRef, hlook] at hcfg
    rcases hready : ep.status.ready with _ | _
    · simp [hready] at hcfg
    · simp only [hready] at hcfg
      rw [if_neg (by decide : ¬(true = false))] at hcfg
      rcases hfc : fetchCredentials store ep.spec.secretRef (er.nspace.getD ns)
          "endpoint secret" with e2 | ⟨k1, k2⟩
      · simp [hfc] at hcfg
      · simp only [hfc] at hcfg
        injection hcfg with hcfg
        subst hcfg
        refine ⟨rfl, ?_, ?_, ?_⟩
        · rcases hps : ep.spec.pathStyle with _ | _ <;>
            simp [hps, initialClientConfig]
        · rcases hr : ep.spec.region with _ | _ <;>
            simp [hr, initialClientConfig]
        · rcases ht : ep.spec.tls with _ | _ <;>
            simp [ht, initialClientConfig]

/-- Witness for C8 (amended): with the direct URL removed, the
connection-level SecretRef and TLS block of `connAliasPlusURL` are
ignored and the alias's own data is used (ak1/sk1, insecure false). -/
theorem C8_alias_endpoint_fields_w :
    buildClientConfig readyAliasStore { connAliasPlusURL with url := none } "default" =
      buildClientConfig readyAliasStore
        { connAliasPlusURL with url := none, secretRef := none, tls := none }
        "default" :=
  C8_alias_endpoint_fields.1 readyAliasStore
    { connAliasPlusURL with url := none } "default" rfl

/-- C10 counterexample: a DirectURL connection with no SecretRef at all
resolves successfully to a configuration with empty credentials instead
of failing with a SecretError. -/
theorem C10_empty_credentials_cex :
    buildClientConfig emptyStore connURLOnly "default" =
      .ok { endpoint := "http://minio:9000", accessKeyID := "",
            secretAccessKey := "", useSSL := true, insecure := false,
            pathStyle := false, region := "" } := rfl

/-- C10 (amended): whenever a credentials secret is actually referenced —
by the connection's own SecretRef next to a direct URL, or by the
referenced (ready) Alias — a missing secret and a missing access-key or
secret-key entry under the configured-or-default key names each fail with
a SecretError; but a DirectURL connection whose SecretRef is unset skips
the lookup entirely and resolves with empty credentials. -/
theorem C10_secret_errors :
    (∀ (store : K8sStore) (conn : MinIOConnection) (ns u0 : String)
        (sr : SecretReference),
      conn.aliasRef = none → conn.url = some u0 → conn.secretRef = some sr →
      store.secrets { name := sr.name, nspace := sr.nspace.getD ns } = none →
      buildClientConfig store conn ns =
        .error (.secretError ("failed to get secret " ++ sr.nspace.getD ns ++
          "/" ++ sr.name))) ∧
    (∀ (store : K8sStore) (conn : MinIOConnection) (ns u0 : String)
        (sr : SecretReference) (secret : Secret),
      conn.aliasRef = none → conn.url = some u0 → conn.secretRef = some sr →
      store.secrets { name := sr.name, nspace := sr.nspace.getD ns } = some secret →
      secret.data.lookup
        (if sr.accessKeyIDKey = "" then "accessKeyID" else sr.accessKeyIDKey) = none →
      buildClientConfig store conn ns =
        .error (.secretError ("access key ID not found in secret " ++
          sr.nspace.getD ns ++ "/" ++ sr.name ++ " with key " ++
          (if sr.accessKeyIDKey = "" then "accessKeyID" else sr.accessKeyIDKey)))) ∧
    (∀ (store : K8sStore) (conn : MinIOConnection) (ns u0 : String)
        (sr : SecretReference) (secret : Secret) (k1 : String),
      conn.aliasRef = none → conn.url = some u0 → conn.secretRef = some sr →
      store.secrets { name := sr.name, nspace := sr.nspace.getD ns } = some secret →
      secret.data.lookup
        (if sr.accessKeyIDKey = "" then "accessKeyID" else sr.accessKeyIDKey) =
        some k1 →
      secret.data.lookup
        (if sr.secretAccessKeyKey = "" then "secretAccessKey"
         else sr.secretAccessKeyKey) = none →
      buildClientConfig store conn ns =
        .error (.secretError ("secret access key not found in secret " ++
          sr.nspace.getD ns ++ "/" ++ sr.name ++ " with key " ++
          (if sr.secretAccessKeyKey = "" then "secretAccessKey"
           else sr.secretAccessKeyKey)))) ∧
    (∀ (store : K8sStore) (conn : MinIOConnection) (ns : String)
        (ar : AliasReference) (al : Alias),
      conn.aliasRef = some ar →
      store.aliases { name := ar.name, nspace := ar.nspace.getD ns } = some al →
      al.status.ready = true →
      store.secrets { name := al.spec.secretRef.name, nspace := al.spec.secretRef.nspace.getD (ar.nspace.getD ns) } = none →
      buildClientConfig store conn ns =
        .error (.secretError ("failed to get alias secret " ++
          al.spec.secretRef.nspace.getD (ar.nspace.getD ns) ++ "/" ++
          al.spec.secretRef.name))) ∧
    (∀ (store : K8sStore) (conn : MinIOConnection) (ns : String)
        (ar : AliasReference) (al : Alias) (secret : Secret),
      conn.aliasRef = some ar →
      store.aliases { name := ar.name, nspace := ar.nspace.getD ns } = some al →
      al.status.ready = true →
      store.secrets { name := al.spec.secretRef.name, nspace := al.spec.secretRef.nspace.getD (ar.nspace.getD ns) } = some secret →
      secret.data.lookup
        (if al.spec.secretRef.accessKeyIDKey = "" then "accessKeyID"
         else al.spec.secretRef.accessKeyIDKey) = none →
      buildClientConfig store conn ns =
        .error (.secretError ("access key ID not found in alias secret " ++
          al.spec.secretRef.nspace.getD (ar.nspace.getD ns) ++ "/" ++
          al.spec.secretRef.name ++ " with key " ++
          (if al.spec.secretRef.accessKeyIDKey = "" then "accessKeyID"
           else al.spec.secretRef.accessKeyIDKey)))) := by
  refine ⟨?_, ?_, ?_, ?_, ?_⟩
  · intro store conn ns u0 sr h1 h2 h3 hmiss
    obtain ⟨a, u, e, s, t⟩ := conn
    obtain rfl : a = none := h1
    obtain rfl : u = some u0 := h2
    obtain rfl : s = some sr := h3
    simp [buildClientConfig, fetchCredentials, hmiss]
  · intro store conn ns u0 sr secret h1 h2 h3 hsec hmiss
    obtain ⟨a, u, e, s, t⟩ := conn
    obtain rfl : a = none := h1
    obtain rfl : u = some u0 := h2
    obtain rfl : s = some sr := h3
    simp [buildClientConfig, fetchCredentials, hsec, hmiss]
  · intro store conn ns u0 sr secret k1 h1 h2 h3 hsec hk1 hmiss
    obtain ⟨a, u, e, s, t⟩ := conn
    obtain rfl : a = none := h1
    obtain rfl : u = some u0 := h2
    obtain rfl : s = some sr := h3
    simp [buildClientConfig, fetchCredentials, hsec, hk1, hmiss]
  · intro store conn ns ar al h1 hlook hready hmiss
    obtain ⟨a, u, e, s, t⟩ := conn
    obtain rfl : a = some ar := h1
    simp [buildClientConfig, resolveAliasRef, fetchCredentials, hlook, hready, hmiss]
  · intro store conn ns ar al secret h1 hlook hready hsec hmiss
    obtain ⟨a, u, e, s, t⟩ := conn
    obtain rfl : a = some ar := h1
    simp [buildClientConfig, resolveAliasRef, fetchCredentials, hlook, hready,
      hsec, hmiss]

/-- Witness for C10 (amended): a direct URL whose referenced secret is
absent fails with SecretError. -/
theorem C10_secret_errors_w :
    buildClientConfig emptyStore connURLWithSecret "default" =
      .error (.secretError "failed to get secret default/creds") := by
  have h := C10_secret_errors.1 emptyStore connURLWithSecret "default"
    "http://minio:9000"
    { name := "creds", nspace := none, accessKeyIDKey := "",
      secretAccessKeyKey := "" } rfl rfl rfl rfl
  exact h.trans (congrArg Except.error (by decide))

/-- C1: on a pass over a resource that is not being deleted and whose
finalizer marker is absent, persisting the marker is the first event of
the pass, and no remote mutating call can precede it: the User controller
ends the pass right after the persist (no remote call at all that pass),
and the Policy controller continues past the persist only when it
succeeded, returning immediately when it failed. -/
theorem C1_finalizer_before_mutation :
    (∀ (env : UserEnv) (store : K8sStore) (u : User),
      u.deletionTimestamp = none →
      containsFinalizer u.finalizers UserFinalizer = false →
      (reconcileUser env store u).trace =
        [Event.finalizerUpdate (addFinalizer u.finalizers UserFinalizer)
          (env.addFinalizerUpdate = .ok)] ∧
      ∀ e ∈ (reconcileUser env store u).trace, e.isRemoteMutate = false) ∧
    (∀ (env : PolicyEnv) (p : Policy),
      p.deletionTimestamp = none →
      containsFinalizer p.finalizers PolicyFinalizer = false →
      (reconcilePolicy env p).trace.head? =
        some (Event.finalizerUpdate (addFinalizer p.finalizers PolicyFinalizer)
          (env.addFinalizerUpdate = .ok)) ∧
      (env.addFinalizerUpdate ≠ .ok →
        (reconcilePolicy env p).trace =
          [Event.finalizerUpdate (addFinalizer p.finalizers PolicyFinalizer)
            false])) := by
  constructor
  · intro env store u hdel habs
    have htr : (reconcileUser env store u).trace =
        [Event.finalizerUpdate (addFinalizer u.finalizers UserFinalizer)
          (env.addFinalizerUpdate = .ok)] := by
      simp [reconcileUser, hdel, habs]
    refine ⟨htr, ?_⟩
    intro e he
    rw [htr] at he
    simp only [List.mem_singleton] at he
    subst he
    rfl
  · intro env p hdel habs
    rcases henv : env.addFinalizerUpdate with _ | _ | _
    · refine ⟨?_, fun hne => absurd rfl hne⟩
      simp [reconcilePolicy, hdel, habs, henv, UpdateResult.isErr]
    · constructor
      · simp [reconcilePolicy, hdel, habs, henv, UpdateResult.isErr]
      · intro _
        simp [reconcilePolicy, hdel, habs, henv, UpdateResult.isErr]
    · constructor
      · simp [reconcilePolicy, hdel, habs, henv, UpdateResult.isErr]
      · intro _
        simp [reconcilePolicy, hdel, habs, henv, UpdateResult.isErr]

/-- Witness for C1: a user without the finalizer gets exactly one event,
the successful persist of the added marker. -/
theorem C1_finalizer_before_mutation_w :
    (reconcileUser exEnvOk emptyStore exUserNoFin).trace =
      [Event.finalizerUpdate [UserFinalizer] true] := by
  have h := (C1_finalizer_before_mutation.1 exEnvOk emptyStore exUserNoFin
    rfl (by decide)).1
  simpa [addFinalizer, exUserNoFin, exUser] using h

/-- Removing a finalizer really removes it: the filtered list no longer
contains the marker. -/
theorem not_mem_removeFinalizer (l : List String) (f : String) :
    f ∉ removeFinalizer l f := by
  intro hmem
  have hp := (List.mem_filter.mp hmem).2
  simp at hp

/-- C2: teardown with the finalizer present.  For the User controller: a
failing client construction or a failing RemoveUser keeps the finalizer
and requeues after the fixed minute without returning an error, while a
successful RemoveUser — or an existence check reporting the user absent —
persists the finalizer's removal exactly once.  The Bucket controller
behaves the same, treating a successful BucketExists = false as
confirmed absence and any failure (client, existence check, emptying,
RemoveBucket) as a reason to keep the finalizer and retry in a minute. -/
theorem C2_teardown_finalizer (env : UserEnv) (u : User)
    (benv : BucketDelEnv) (b : Bucket)
    (hu : containsFinalizer u.finalizers UserFinalizer = true)
    (hb : containsFinalizer b.finalizers BucketFinalizer = true) :
    ((env.delNewClientOk = false →
        handleUserDeletion env u =
          { result := { requeueAfterMs := some timeMinuteMs }, isError := false,
            resource := u, trace := [] }) ∧
     (env.delNewClientOk = true → env.delGetUserInfoOk = true →
      env.delRemoveUserOk = false →
        removalWrites UserFinalizer (handleUserDeletion env u).trace = 0 ∧
        (handleUserDeletion env u).result.requeueAfterMs = some timeMinuteMs ∧
        (handleUserDeletion env u).isError = false ∧
        (handleUserDeletion env u).resource.finalizers = u.finalizers) ∧
     (env.delNewClientOk = true →
      (env.delGetUserInfoOk = false ∨ env.delRemoveUserOk = true) →
        removalWrites UserFinalizer (handleUserDeletion env u).trace = 1 ∧
        containsFinalizer (handleUserDeletion env u).resource.finalizers
          UserFinalizer = false)) ∧
    ((benv.delNewClientOk = false →
        handleBucketDeletion benv b =
          { result := { requeueAfterMs := some timeMinuteMs }, isError := false,
            resource := b, trace := [] }) ∧
     (benv.delNewClientOk = true → benv.bucketExistsResult = none →
        removalWrites BucketFinalizer (handleBucketDeletion benv b).trace = 0 ∧
        (handleBucketDeletion benv b).result.requeueAfterMs = some timeMinuteMs ∧
        (handleBucketDeletion benv b).isError = false ∧
        (handleBucketDeletion benv b).resource.finalizers = b.finalizers) ∧
     (benv.delNewClientOk = true → benv.bucketExistsResult = some true →
      (benv.emptyBucketOk = false ∨ benv.removeBucketOk = false) →
        removalWrites BucketFinalizer (handleBucketDeletion benv b).trace = 0 ∧
        (handleBucketDeletion benv b).result.requeueAfterMs = some timeMinuteMs ∧
        (handleBucketDeletion benv b).isError = false ∧
        (handleBucketDeletion benv b).resource.finalizers = b.finalizers) ∧
     (benv.delNewClientOk = true →
      (benv.bucketExistsResult = some false ∨
        (benv.bucketExistsResult = some true ∧ benv.emptyBucketOk = true ∧
         benv.removeBucketOk = true)) →
        removalWrites BucketFinalizer (handleBucketDeletion benv b).trace = 1 ∧
        containsFinalizer (handleBucketDeletion benv b).resource.finalizers
          BucketFinalizer = false)) := by
  refine ⟨⟨?_, ?_, ?_⟩, ?_, ?_, ?_, ?_⟩
  · intro h
    simp [handleUserDeletion, hu, h]
  · intro h1 h2 h3
    simp [handleUserDeletion, hu, h1, h2, h3, removalWrites]
  · intro h1 h2
    have hmem : UserFinalizer ∈ u.finalizers := by
      simpa [containsFinalizer, List.elem_iff] using hu
    rcases h2 with h2 | h2
    · simp [handleUserDeletion, hu, hmem, h1, h2, removalWrites,
        not_mem_removeFinalizer, containsFinalizer]
    · rcases hg : env.delGetUserInfoOk with _ | _
      · simp [handleUserDeletion, hu, hmem, h1, hg, removalWrites,
          not_mem_removeFinalizer, containsFinalizer]
      · simp [handleUserDeletion, hu, hmem, h1, hg, h2, removalWrites,
          not_mem_removeFinalizer, containsFinalizer]
  · intro h
    simp [handleBucketDeletion, hb, h]
  · intro h1 h2
    simp [handleBucketDeletion, hb, h1, h2, removalWrites]
  · intro h1 h2 h3
    rcases h3 with h3 | h3
    · simp [handleBucketDeletion, hb, h1, h2, h3, removalWrites]
    · rcases he : benv.emptyBucketOk with _ | _
      · simp [handleBucketDeletion, hb, h1, h2, he, removalWrites]
      · simp [handleBucketDeletion, hb, h1, h2, he, h3, removalWrites]
  · intro h1 h2
    have hmem : BucketFinalizer ∈ b.finalizers := by
      simpa [containsFinalizer, List.elem_iff] using hb
    rcases h2 with h2 | ⟨h2, h3, h4⟩
    · simp [handleBucketDeletion, bucketRemoveFinalizerStep, hb, hmem, h1, h2,
        removalWrites, not_mem_removeFinalizer, containsFinalizer]
    · simp [handleBucketDeletion, bucketRemoveFinalizerStep, hb, hmem, h1, h2,
        h3, h4, removalWrites, not_mem_removeFinalizer, containsFinalizer]

/-- Witness for C2: with every call succeeding, the deleting user's
finalizer is removed exactly once and is absent afterwards. -/
theorem C2_teardown_finalizer_w :
    removalWrites UserFinalizer
      (handleUserDeletion exEnvOk exUserDeleting).trace = 1 ∧
    containsFinalizer (handleUserDeletion exEnvOk exUserDeleting).resource.finalizers
      UserFinalizer = false :=
  (C2_teardown_finalizer exEnvOk exUserDeleting exBucketDelEnv exBucket
    (by decide) (by decide)).1.2.2 rfl (Or.inr rfl)

/-- The shared tail of the user convergence emits no status write. -/
theorem reconcileUserTail_no_statusWrite (env : UserEnv) (user : User)
    (ev : List (Event UserStatus)) (st : UserStatus) (r : UpdateResult)
    (hev : Event.statusWrite st r ∉ ev) :
    Event.statusWrite st r ∉ (reconcileUserTail env user ev).2.2.2 := by
  unfold reconcileUserTail
  rcases hs : env.setUserStatusOk with _ | _
  · simp [hev]
  · by_cases hp : user.spec.policies.length > 0
    · simp [hp, hev]
    · simp [hp, hev]

/-- The shared tail of the user convergence never touches the observed
generation. -/
theorem reconcileUserTail_og (env : UserEnv) (user : User)
    (ev : List (Event UserStatus)) :
    (reconcileUserTail env user ev).2.2.1.status.observedGeneration =
      user.status.observedGeneration := by
  unfold reconcileUserTail
  rcases hs : env.setUserStatusOk with _ | _
  · rfl
  · by_cases hp : user.spec.policies.length > 0
    · simp [hp]
    · simp [hp]

/-- The user convergence function emits only remote-call events, never a
status write. -/
theorem reconcileUserInner_no_statusWrite (env : UserEnv) (store : K8sStore)
    (user : User) (st : UserStatus) (r : UpdateResult) :
    Event.statusWrite st r ∉ (reconcileUserInner env store user).2.2.2 := by
  unfold reconcileUserInner
  rcases hgp : getPassword store user with e0 | p0
  · simp
  · rcases hg : env.getUserInfoOk with _ | _
    · rcases ha : env.addUserOk with _ | _
      · simp
      · simp only []
        apply reconcileUserTail_no_statusWrite
        simp
    · rcases hsu : env.setUserOk with _ | _
      · simp
      · simp only []
        apply reconcileUserTail_no_statusWrite
        simp

/-- The user convergence function never touches the observed generation. -/
theorem reconcileUserInner_og (env : UserEnv) (store : K8sStore) (user : User) :
    (reconcileUserInner env store user).2.2.1.status.observedGeneration =
      user.status.observedGeneration := by
  unfold reconcileUserInner
  rcases hgp : getPassword store user with e0 | p0
  · simp
  · rcases hg : env.getUserInfoOk with _ | _
    · rcases ha : env.addUserOk with _ | _
      · simp
      · simp [reconcileUserTail_og]
    · rcases hsu : env.setUserOk with _ | _
      · simp
      · simp [reconcileUserTail_og]

/-- C6 counterexample: starting from observedGeneration 3 (the last
successful pass) at spec generation 5, a pass whose client construction
fails still persists observedGeneration 5 — the value is written before
resolution, not only on success. -/
theorem C6_observed_generation_cex :
    (lastPersistedStatus (reconcileUser cexEnvClientFail emptyStore exUser).trace).map
        UserStatus.observedGeneration = some 5 ∧
    (reconcileUser cexEnvClientFail emptyStore exUser).resource.status.ready = false ∧
    (GetCondition
        (reconcileUser cexEnvClientFail emptyStore exUser).resource.status.conditions
        .error).map Condition.status = some .conditionTrue := by decide

/-- Every status written by the convergence section carries the observed
generation the resource entered it with. -/
theorem reconcileUserConverge_og (env : UserEnv) (store : K8sStore) (user : User)
    (st : UserStatus) (r : UpdateResult)
    (hmem : Event.statusWrite st r ∈ (reconcileUserConverge env store user).trace) :
    st.observedGeneration = user.status.observedGeneration := by
  unfold reconcileUserConverge at hmem
  by_cases hie : (reconcileUserInner env store user).2.1 = true
  · simp only [hie, if_true] at hmem
    simp only [List.mem_append, List.mem_singleton] at hmem
    rcases hmem with hmem | hmem
    · exact absurd hmem (reconcileUserInner_no_statusWrite env store user st r)
    · injection hmem with h1 h2
      subst h1
      simp [reconcileUserInner_og]
  · simp only [hie, if_false, Bool.false_eq_true] at hmem
    rw [apply_ite PassOut.trace] at hmem
    simp only [ite_self] at hmem
    simp only [List.mem_append, List.mem_singleton] at hmem
    rcases hmem with hmem | hmem
    · exact absurd hmem (reconcileUserInner_no_statusWrite env store user st r)
    · injection hmem with h1 h2
      subst h1
      simp [reconcileUserInner_og]

/-- C6 (amended): on every non-deletion pass that reaches the progressing
step, every status document written during the pass — including the very
first write, before any remote work — carries
observedGeneration = current spec generation, whether or not the pass
later fails. -/
theorem C6_observed_generation_intent (env : UserEnv) (store : K8sStore) (u : User)
    (hdel : u.deletionTimestamp = none)
    (hfin : containsFinalizer u.finalizers UserFinalizer = true) :
    ∀ (st : UserStatus) (r : UpdateResult),
      Event.statusWrite st r ∈ (reconcileUser env store u).trace →
      st.observedGeneration = u.generation := by
  intro st r hmem
  rcases hps : env.progressingStatusUpdate with _ | _ | _
  · rcases hc : env.newClientOk with _ | _
    · simp [reconcileUser, hdel, hfin, hps, hc] at hmem
      rcases hmem with ⟨rfl, -⟩ | ⟨rfl, -⟩ <;> rfl
    · simp only [reconcileUser] at hmem
      rw [if_neg (by simp [hdel])] at hmem
      rw [if_neg (by simp [hfin])] at hmem
      rw [if_neg (by simp [hps])] at hmem
      rw [if_neg (by simp [hc])] at hmem
      dsimp only at hmem
      rcases List.mem_append.mp hmem with hmem | hmem
      · simp only [List.mem_singleton] at hmem
        injection hmem with h1 h2
        subst h1
        rfl
      · have h := reconcileUserConverge_og env store _ st r hmem
        simpa using h
  · simp [reconcileUser, hdel, hfin, hps] at hmem
    rcases hmem with ⟨rfl, -⟩
    rfl
  · simp [reconcileUser, hdel, hfin, hps] at hmem
    rcases hmem with ⟨rfl, -⟩
    rfl

/-- Witness for C6 (amended): in the all-success pass over the example
user, the first persisted status already carries generation 5. -/
theorem C6_observed_generation_intent_w :
    (⟨[⟨.progressing, .conditionTrue, 42, "Reconciling", "Reconciling user"⟩],
       false, "", "", [], [], none, none, 5⟩ : UserStatus).observedGeneration =
      exUser.generation :=
  C6_observed_generation_intent exEnvOk emptyStore exUser rfl (by decide)
    _ .ok (by decide)

/-- The convergence section always ends with a status write carrying the
pass's sync time. -/
theorem reconcileUserConverge_last (env : UserEnv) (store : K8sStore) (user : User) :
    ∃ st r, (reconcileUserConverge env store user).trace.getLast? =
      some (Event.statusWrite st r) ∧ st.lastSyncTime = some env.now := by
  unfold reconcileUserConverge
  by_cases hie : (reconcileUserInner env store user).2.1 = true
  · refine ⟨{ (reconcileUserInner env store user).2.2.1.status with
      conditions := SetCondition
        (reconcileUserInner env store user).2.2.1.status.conditions .error
        .conditionTrue "ReconcileError" "Failed to reconcile user" env.now,
      ready := false, lastSyncTime := some env.now },
      env.errorStatusUpdate, ?_, rfl⟩
    simp only [hie, if_true]
    exact List.getLast?_append_cons _ _ _
  · refine ⟨{ (reconcileUserInner env store user).2.2.1.status with
      conditions := SetCondition
        (SetCondition (reconcileUserInner env store user).2.2.1.status.conditions
          .ready .conditionTrue "Ready" "User is ready" env.now)
        .progressing .conditionFalse "Ready" "User reconciliation completed"
        env.now,
      ready := true,
      username := (reconcileUserInner env store user).2.2.1.spec.username,
      lastSyncTime := some env.now },
      env.readyStatusUpdate, ?_, rfl⟩
    simp only [hie, if_false, Bool.false_eq_true]
    rw [apply_ite PassOut.trace]
    simp only [ite_self]
    exact List.getLast?_append_cons _ _ _

/-- Prefixing the convergence trace does not change its last event. -/
theorem getLast?_append_converge (env : UserEnv) (store : K8sStore) (user : User)
    (ev : List (Event UserStatus)) :
    ∃ st r, (ev ++ (reconcileUserConverge env store user).trace).getLast? =
      some (Event.statusWrite st r) ∧ st.lastSyncTime = some env.now := by
  obtain ⟨st, r, hlast, hsync⟩ := reconcileUserConverge_last env store user
  refine ⟨st, r, ?_, hsync⟩
  have hne : (reconcileUserConverge env store user).trace ≠ [] := by
    intro h
    rw [h] at hlast
    simp at hlast
  rw [List.getLast?_append_of_ne_nil _ hne]
  exact hlast

/-- C7 counterexample: a pass whose client construction fails persists an
Error condition and requeues after the fixed minute, but the persisted
status still has the old lastSyncTime (none), not the pass's time — the
field is not written on this terminal outcome. -/
theorem C7_lastSync_cex :
    (lastPersistedStatus (reconcileUser cexEnvClientFail emptyStore exUser).trace).map
        UserStatus.lastSyncTime = some none ∧
    (reconcileUser cexEnvClientFail emptyStore exUser).result.requeueAfterMs =
      some timeMinuteMs ∧
    (GetCondition
        (reconcileUser cexEnvClientFail emptyStore exUser).resource.status.conditions
        .error).map Condition.status = some .conditionTrue := by decide

/-- C7 (amended): on every non-deletion pass that persists the
progressing status and constructs the client successfully, the pass ends
with a status write whose lastSyncTime is the pass's time — both on
convergence failure and on success; the client-construction failure path,
by contrast, writes status without touching lastSyncTime. -/
theorem C7_lastSync_after_client (env : UserEnv) (store : K8sStore) (u : User)
    (hdel : u.deletionTimestamp = none)
    (hfin : containsFinalizer u.finalizers UserFinalizer = true)
    (hps : env.progressingStatusUpdate = .ok)
    (hc : env.newClientOk = true) :
    ∃ st r, (reconcileUser env store u).trace.getLast? =
      some (Event.statusWrite st r) ∧ st.lastSyncTime = some env.now := by
  simp only [reconcileUser]
  rw [if_neg (by simp [hdel])]
  rw [if_neg (by simp [hfin])]
  rw [if_neg (by simp [hps])]
  rw [if_neg (by simp [hc])]
  dsimp only
  exact getLast?_append_converge env store _ _

/-- Witness for C7 (amended): the all-success pass over the example user
ends with a status write stamped with time 42. -/
theorem C7_lastSync_after_client_w :
    ∃ st r, (reconcileUser exEnvOk emptyStore exUser).trace.getLast? =
      some (Event.statusWrite st r) ∧ st.lastSyncTime = some 42 :=
  C7_lastSync_after_client exEnvOk emptyStore exUser rfl (by decide) rfl rfl

/-- The policy convergence reports no error when the document is nonempty
and AddCannedPolicy succeeds. -/
theorem reconcilePolicyInner_ok (env : PolicyEnv) (p : Policy)
    (hp : p.spec.policy ≠ "") (hadd : env.addCannedPolicyOk = true) :
    (reconcilePolicyInner env p).2.1 = false := by
  unfold reconcilePolicyInner
  rw [if_neg hp]
  dsimp only
  split
  · rw [if_neg (by simp [hadd])]
  · rfl

/-- C9 counterexample: in the User controller a conflicting progressing
status write is returned as an error from the pass (with no requeue
scheduled by the pass itself), instead of being absorbed and retried. -/
theorem C9_conflict_cex :
    (reconcileUser cexEnvConflict emptyStore exUser).isError = true ∧
    (reconcileUser cexEnvConflict emptyStore exUser).result.requeueAfterMs =
      none := by decide

/-- C9 (amended): the Policy controller absorbs optimistic-concurrency
conflicts on the progressing and ready status writes, requeueing after
exactly one second (not sub-second) and returning no error; the User
controller has no such handling and returns the conflicting write's error
from the pass. -/
theorem C9_conflict_handling :
    (∀ (env : PolicyEnv) (p : Policy),
      p.deletionTimestamp = none →
      containsFinalizer p.finalizers PolicyFinalizer = true →
      env.progressingStatusUpdate = .conflict →
      (reconcilePolicy env p).result = { requeueAfterMs := some timeSecondMs } ∧
      (reconcilePolicy env p).isError = false) ∧
    (∀ (env : PolicyEnv) (p : Policy),
      p.deletionTimestamp = none →
      containsFinalizer p.finalizers PolicyFinalizer = true →
      env.progressingStatusUpdate = .ok → env.newClientOk = true →
      p.spec.policy ≠ "" → env.addCannedPolicyOk = true →
      env.readyStatusUpdate = .conflict →
      (reconcilePolicy env p).result = { requeueAfterMs := some timeSecondMs } ∧
      (reconcilePolicy env p).isError = false) ∧
    (∀ (env : UserEnv) (store : K8sStore) (u : User),
      u.deletionTimestamp = none →
      containsFinalizer u.finalizers UserFinalizer = true →
      env.progressingStatusUpdate = .conflict →
      (reconcileUser env store u).isError = true ∧
      (reconcileUser env store u).result = { requeueAfterMs := none }) := by
  refine ⟨?_, ?_, ?_⟩
  · intro env p hdel hfin hconf
    constructor <;> simp [reconcilePolicy, reconcilePolicyCore, hdel, hfin, hconf]
  · intro env p hdel hfin hps hc hpol hadd hready
    constructor <;>
      simp [reconcilePolicy, reconcilePolicyCore, hdel, hfin, hps, hc, hready,
        reconcilePolicyInner_ok, hpol, hadd]
  · intro env store u hdel hfin hconf
    constructor <;> simp [reconcileUser, hdel, hfin, hconf]

/-- Witness for C9 (amended): the example policy pass with a conflicting
progressing write requeues after one second with no error. -/
theorem C9_conflict_handling_w :
    (reconcilePolicy cexPolicyEnvConflict exPolicy).result =
      { requeueAfterMs := some timeSecondMs } ∧
    (reconcilePolicy cexPolicyEnvConflict exPolicy).isError = false :=
  C9_conflict_handling.1 cexPolicyEnvConflict exPolicy rfl (by decide) rfl

end MC
